import Mathlib

/-!
Shallow embedding of the OnePA facility-slot checker script
(src/check_slots.py) and proofs about its components.

JSON-like values are modelled by the inductive type JVal; Python
truthiness, dict access with a default, and comparison against numeric
and string literals are modelled explicitly.  Network effects are
abstracted into oracles: the poller receives a stream of per-attempt
HTTP outcomes, the date-range driver receives the per-date result of
the poller, and the notifier receives a per-chunk send outcome.
Blocking sleeps are recorded as data (a list of delays) rather than
performed.  The recursive retry call and the unbounded while loop are
rendered as structural recursion on an explicit remaining-budget
counter: remaining = MAX_RETRIES - retry_count for the poller and
remaining = 5 - dates_checked for the driver, so both definitions
compute by rfl.
-/

/-- A decoded JSON value.  Numbers are modelled as integers (the API
status codes and slot fields used by the script are integral); objects
are association lists in which the first binding of a key wins, which
matches the unique-key dictionaries produced by JSON decoding. -/
inductive JVal where
  | null : JVal
  | bool : Bool → JVal
  | num : Int → JVal
  | str : String → JVal
  | arr : List JVal → JVal
  | obj : List (String × JVal) → JVal

/-- Python truthiness of a decoded JSON value: None, False, 0, the
empty string, the empty list and the empty dict are falsy, everything
else is truthy. -/
def pyTruthy : JVal → Bool
  | JVal.null => false
  | JVal.bool b => b
  | JVal.num n => n != 0
  | JVal.str s => s != ""
  | JVal.arr xs => !xs.isEmpty
  | JVal.obj fs => !fs.isEmpty

/-- Python membership test on a dict: the expression (key in d).  On a
non-dict value the script never reaches this test with the claims
considered here, and the model returns false. -/
def pyHasKey : JVal → String → Bool
  | JVal.obj fs, k => fs.any (fun p => p.1 == k)
  | _, _ => false

/-- Python dict .get with a default: d.get(key, default).  On a
non-dict value the model returns the default, matching the defensive
use in the script where every such access is guarded or defaulted. -/
def dictGet : JVal → String → JVal → JVal
  | JVal.obj fs, k, d =>
    match fs.lookup k with
    | some v => v
    | none => d
  | _, _, d => d

/-- Python iteration over a value expected to be a JSON list; a
non-list value contributes no iterations (the script only ever
iterates the resourceList and slotList fields, and its defaults make
the empty list the fallback). -/
def asList : JVal → List JVal
  | JVal.arr xs => xs
  | _ => []

/-- Python equality of a decoded value against an integer literal:
only a JSON number of that value compares equal. -/
def pyEqNum : JVal → Int → Bool
  | JVal.num m, n => m == n
  | _, _ => false

/-- Python equality of a decoded value against a string literal: only
a JSON string of that value compares equal. -/
def pyEqStr : JVal → String → Bool
  | JVal.str t, s => t == s
  | _, _ => false

/-- The dict appended for each available slot by
extract_available_slots: court, time, startTime, endTime, isPeak. -/
structure SlotRecord where
  court : JVal
  time : JVal
  startTime : JVal
  endTime : JVal
  isPeak : JVal

/-- Builds the record appended for one slot, given the enclosing
resource name: time fields pass through slot.get (default None) and
isPeak defaults to False. -/
def mkSlotRecord (resource_name : JVal) (slot : JVal) : SlotRecord :=
  { court := resource_name
    time := dictGet slot "timeRangeName" JVal.null
    startTime := dictGet slot "startTime" JVal.null
    endTime := dictGet slot "endTime" JVal.null
    isPeak := dictGet slot "isPeak" (JVal.bool false) }

/-- The availability test of the parser, line 137 of the script:
slot.get("isAvailable") or slot.get("availabilityStatus") ==
"Available".  The first disjunct is Python truthiness of the field,
the second is equality with the literal string. -/
def slotAvailable (slot : JVal) : Bool :=
  pyTruthy (dictGet slot "isAvailable" JVal.null) ||
    pyEqStr (dictGet slot "availabilityStatus" JVal.null) "Available"

/-- extract_available_slots: returns [] when the payload is None,
falsy, or lacks the "response" key; otherwise walks
response.resourceList, and for each resource appends one SlotRecord
per slot passing the availability test, in order. -/
def extract_available_slots (response_data : Option JVal) : List SlotRecord :=
  match response_data with
  | none => []
  | some v =>
    if !pyTruthy v || !pyHasKey v "response" then []
    else
      let response := dictGet v "response" JVal.null
      (asList (dictGet response "resourceList" (JVal.arr []))).flatMap
        (fun resource =>
          ((asList (dictGet resource "slotList" (JVal.arr []))).filter
              slotAvailable).map
            (mkSlotRecord (dictGet resource "resourceName" (JVal.str "Unknown"))))

/-- Configuration constant MAX_RETRIES of the script. -/
def MAX_RETRIES : Nat := 3

/-- Configuration constant RETRY_DELAY (seconds) of the script. -/
def RETRY_DELAY : Nat := 20

/-- Outcome of one HTTP attempt inside get_facility_slots: either a
request-level failure (network error, non-2xx HTTP status raised by
raise_for_status, or a body that fails to decode as JSON — all of
these raise a RequestException caught by the handler) or a decoded
payload. -/
inductive ApiResult where
  | reqError : ApiResult
  | payload : JVal → ApiResult

/-- The accepted-status test of get_facility_slots, line 91: the
negation of (rs != 200 and rs != "200") and (rs != 2008 and rs !=
"2008"), i.e. membership of data.get("responseStatusCode") in the set
containing 200, "200", 2008 and "2008". -/
def acceptedStatus (data : JVal) : Bool :=
  let rs := dictGet data "responseStatusCode" JVal.null
  pyEqNum rs 200 || pyEqStr rs "200" || pyEqNum rs 2008 || pyEqStr rs "2008"

/-- An attempt outcome on which get_facility_slots takes the retry
path: a request-level failure, or a payload whose status is outside
the accepted set. -/
def attemptFails : ApiResult → Bool
  | ApiResult.reqError => true
  | ApiResult.payload d => !acceptedStatus d

/-- Observable outcome of a full run of get_facility_slots: the
returned value, the sleeps performed (one entry per retry, in order,
each the delay slept before that retry), and the number of HTTP
attempts made. -/
structure PollResult where
  result : Option JVal
  sleeps : List Nat
  attempts : Nat

/-- The retry recursion of get_facility_slots over a stream of
per-attempt outcomes.  The remaining budget equals
MAX_RETRIES - retry_count, so remaining = 0 is exactly the
retry_count < MAX_RETRIES test failing; attempt is the index of the
current attempt. -/
def pollLoop (responses : Nat → ApiResult) : Nat → Nat → PollResult
  | 0, attempt =>
    match responses attempt with
    | ApiResult.reqError => { result := none, sleeps := [], attempts := 1 }
    | ApiResult.payload d =>
      if acceptedStatus d then { result := some d, sleeps := [], attempts := 1 }
      else { result := none, sleeps := [], attempts := 1 }
  | r + 1, attempt =>
    match responses attempt with
    | ApiResult.reqError =>
      let rest := pollLoop responses r (attempt + 1)
      { result := rest.result, sleeps := RETRY_DELAY :: rest.sleeps,
        attempts := rest.attempts + 1 }
    | ApiResult.payload d =>
      if acceptedStatus d then { result := some d, sleeps := [], attempts := 1 }
      else
        let rest := pollLoop responses r (attempt + 1)
        { result := rest.result, sleeps := RETRY_DELAY :: rest.sleeps,
          attempts := rest.attempts + 1 }

/-- get_facility_slots as called by the driver: retry_count starts at
0, so the remaining budget is MAX_RETRIES. -/
def get_facility_slots (responses : Nat → ApiResult) : PollResult :=
  pollLoop responses MAX_RETRIES 0

/-- The sentinel test of check_facilities, line 204: status_code ==
"2008" or status_code == 2008. -/
def sentinelStatus (data : JVal) : Bool :=
  let rs := dictGet data "responseStatusCode" JVal.null
  pyEqStr rs "2008" || pyEqNum rs 2008

/-- The value stored under all_available_slots[facility][date_str]:
the non-empty slot list plus outletDivision (read from the misspelled
source key "outletDivison", defaulting to the empty string) and price
(defaulting to the empty dict). -/
structure DateEntry where
  slots : List SlotRecord
  outletDivision : JVal
  price : JVal

/-- Why the per-facility while loop ended. -/
inductive StopReason where
  | pollFailed : StopReason
  | sentinel : StopReason
  | safetyLimit : StopReason

/-- Observable outcome of one facility scan: the (day-offset, entry)
pairs recorded, the day offsets polled in order, and the stop
reason. -/
structure ScanResult where
  entries : List (Nat × DateEntry)
  polled : List Nat
  stop : StopReason

/-- The entries recorded for day offset i from payload data: one entry
when the parser finds at least one available slot, none otherwise
(lines 191-196 of the script). -/
def recordedEntries (data : JVal) (i : Nat) : List (Nat × DateEntry) :=
  let available_slots := extract_available_slots (some data)
  if available_slots.isEmpty then []
  else
    [(i, { slots := available_slots
           outletDivision :=
             dictGet (dictGet data "response" (JVal.obj [])) "outletDivison"
               (JVal.str "")
           price :=
             dictGet (dictGet data "response" (JVal.obj [])) "price"
               (JVal.obj []) })]

/-- The per-facility while loop of check_facilities over an oracle
giving the poller result for each day offset (o i abstracts
get_facility_slots for today + i days).  The remaining budget equals
5 - dates_checked: the source test dates_checked > 5 fails exactly
while remaining > 0, since dates_checked = i + 1 when the test runs.
Order of events per iteration matches the source: a None result stops
with nothing recorded; otherwise slots are extracted and possibly
recorded, then the sentinel test runs, then the safety limit. -/
def scanLoop (o : Nat → Option JVal) : Nat → Nat → ScanResult
  | 0, i =>
    match o i with
    | none => { entries := [], polled := [i], stop := StopReason.pollFailed }
    | some data =>
      if sentinelStatus data then
        { entries := recordedEntries data i, polled := [i],
          stop := StopReason.sentinel }
      else
        { entries := recordedEntries data i, polled := [i],
          stop := StopReason.safetyLimit }
  | r + 1, i =>
    match o i with
    | none => { entries := [], polled := [i], stop := StopReason.pollFailed }
    | some data =>
      if sentinelStatus data then
        { entries := recordedEntries data i, polled := [i],
          stop := StopReason.sentinel }
      else
        let rest := scanLoop o r (i + 1)
        { entries := recordedEntries data i ++ rest.entries,
          polled := i :: rest.polled, stop := rest.stop }

/-- One facility scan starting at today (day offset 0, dates_checked
0, so the remaining budget is 5). -/
def scanFacility (o : Nat → Option JVal) : ScanResult :=
  scanLoop o 5 0

/-- The day offsets at which the poller is invoked stop the scan: the
poller returned None, or the payload carries the sentinel status. -/
def stopsAt (o : Nat → Option JVal) (j : Nat) : Bool :=
  match o j with
  | none => true
  | some data => sentinelStatus data

/-- check_facilities over a per-facility, per-day oracle of poller
results: scans each facility in list order and, mirroring the
defaultdict into which entries are only ever assigned, a facility
appears in the aggregate exactly when its scan recorded at least one
entry. -/
def check_facilities (o : String → Nat → Option JVal)
    (facilities : List String) : List (String × List (Nat × DateEntry)) :=
  facilities.filterMap (fun f =>
    let e := (scanFacility (o f)).entries
    if e.isEmpty then none else some (f, e))

/-- save_results: converts the defaultdict aggregate to plain dicts
for serialization; on the association-list model this preserves every
binding unchanged. -/
def save_results (all_slots : List (String × List (Nat × DateEntry))) :
    List (String × List (Nat × DateEntry)) :=
  all_slots.map (fun p => (p.1, p.2))

/-- The facility-code to display-name table of format_facility_name. -/
def facilityNames : List (String × String) :=
  [("teckgheecc_BADMINTONCOURTS", "Teck Ghee CC"),
   ("BidadariCC_BADMINTONCOURTS", "Bidadari CC"),
   ("kallangcc_BADMINTONCOURTS", "Kallang CC"),
   ("braddellheightscc_BADMINTONCOURTS", "Braddell Heights CC"),
   ("canberracc_BADMINTONCOURTS", "Canberra CC"),
   ("potongpasircc_BADMINTONCOURTS", "Potong Pasir CC")]

/-- format_facility_name: names.get(facility, facility). -/
def format_facility_name (facility : String) : String :=
  match facilityNames.lookup facility with
  | some n => n
  | none => facility

/-- Python str() of a decoded scalar value, as interpolated into the
summary lines.  The formatter claims only exercise string fields;
rendering of composite values is abbreviated. -/
def pyStr : JVal → String
  | JVal.null => "None"
  | JVal.bool true => "True"
  | JVal.bool false => "False"
  | JVal.num n => toString n
  | JVal.str s => s
  | JVal.arr _ => "[...]"
  | JVal.obj _ => "..."

mutual

/-- Python equality on decoded values, used for dict keys when
grouping slots by court. -/
def JVal.beq : JVal → JVal → Bool
  | JVal.null, JVal.null => true
  | JVal.bool a, JVal.bool b => a == b
  | JVal.num a, JVal.num b => a == b
  | JVal.str a, JVal.str b => a == b
  | JVal.arr a, JVal.arr b => JVal.beqList a b
  | JVal.obj a, JVal.obj b => JVal.beqObj a b
  | _, _ => false

/-- Elementwise equality of JSON lists. -/
def JVal.beqList : List JVal → List JVal → Bool
  | [], [] => true
  | x :: xs, y :: ys => JVal.beq x y && JVal.beqList xs ys
  | _, _ => false

/-- Bindingwise equality of JSON objects. -/
def JVal.beqObj : List (String × JVal) → List (String × JVal) → Bool
  | [], [] => true
  | (k, v) :: xs, (l, w) :: ys => k == l && JVal.beq v w && JVal.beqObj xs ys
  | _, _ => false

end

/-- Adds one slot to the court grouping, preserving first-seen court
order (the defaultdict courts of the formatter). -/
def addToCourt (acc : List (JVal × List SlotRecord)) (s : SlotRecord) :
    List (JVal × List SlotRecord) :=
  if acc.any (fun p => JVal.beq p.1 s.court) then
    acc.map (fun p => if JVal.beq p.1 s.court then (p.1, p.2 ++ [s]) else p)
  else acc ++ [(s.court, [s])]

/-- Groups the slots of one date by court in first-seen order. -/
def courtGroups (slots : List SlotRecord) : List (JVal × List SlotRecord) :=
  slots.foldl addToCourt []

/-- One rendered slot line: four spaces, the peak marker (a star when
isPeak is truthy, two spaces otherwise), a space, and the time
label. -/
def slotLine (s : SlotRecord) : String :=
  "    " ++ (if pyTruthy s.isPeak then "⭐" else "  ") ++ " " ++ pyStr s.time

/-- The lines of one court group: the court header then its slots. -/
def courtLines (p : JVal × List SlotRecord) : List String :=
  ("  " ++ pyStr p.1 ++ ":") :: p.2.map slotLine

/-- Insertion into a list sorted by string key (stable: equal keys
keep their relative order, inserting after existing equal keys is
never needed since insertion sorts a list of distinct dict keys). -/
def insertByKey {β : Type} (x : String × β) :
    List (String × β) → List (String × β)
  | [] => [x]
  | y :: ys => if x.1 ≤ y.1 then x :: y :: ys else y :: insertByKey x ys

/-- Python sorted() over the items of a string-keyed dict. -/
def sortByKey {β : Type} (l : List (String × β)) : List (String × β) :=
  l.foldr insertByKey []

/-- The lines of one date block: the date header, then the grouped
court lines. -/
def dateLines (p : String × DateEntry) : List String :=
  ("\n📆 <b>" ++ p.1 ++ "</b>") :: (courtGroups p.2.slots).flatMap courtLines

/-- The facility header line emitted for a facility with slots. -/
def facilityHeaderLine (name : String) : String :=
  "\n<b>🏢 " ++ name ++ "</b>"

/-- The lines of one facility block: the facility header, then its
date blocks sorted by date string. -/
def facilityBlock (p : String × List (String × DateEntry)) : List String :=
  facilityHeaderLine (format_facility_name p.1) ::
    (sortByKey p.2).flatMap dateLines

/-- Total slot count of one facility (the per-date increments of
total_slots). -/
def facilitySlotCount (dates : List (String × DateEntry)) : Nat :=
  (dates.map (fun d => d.2.slots.length)).sum

/-- One step of the facility loop of create_telegram_summary,
accumulating (lines, total_slots, facilities_with_slots); a facility
with an empty date dict contributes nothing. -/
def summaryStep (acc : List String × Nat × Nat)
    (p : String × List (String × DateEntry)) : List String × Nat × Nat :=
  if p.2.isEmpty then acc
  else
    (acc.1 ++ facilityBlock p, acc.2.1 + facilitySlotCount p.2, acc.2.2 + 1)

/-- The facility section of the summary: lines, total slot count and
facility count accumulated over the facilities sorted by key. -/
def facilitiesSection (all_slots : List (String × List (String × DateEntry))) :
    List String × Nat × Nat :=
  (sortByKey all_slots).foldl summaryStep ([], 0, 0)

/-- The fixed title line of the summary. -/
def titleLine : String := "🏸 <b>OnePA Badminton Slots Available</b> 🏸"

/-- The timestamp line of the summary (the current time is passed in
explicitly; it ends with the embedded newline of the source). -/
def checkedOnLine (now : String) : String := "📅 Checked on: " ++ now ++ "\n"

/-- The marker line appended when no slots were found. -/
def noSlotsLine : String := "\n❌ <b>No available slots found</b>"

/-- The trailing total line appended when slots were found. -/
def totalLine (total facilities : Nat) : String :=
  "\n✅ <b>Total: " ++ toString total ++ " slots across " ++
    toString facilities ++ " facilities</b>"

/-- The legend line explaining the peak marker. -/
def legendLine : String := "\n⭐ = Peak hours"

/-- The full line list built by create_telegram_summary: title,
timestamp, facility blocks, the total or no-slots line, and the
legend. -/
def summaryLines (now : String)
    (all_slots : List (String × List (String × DateEntry))) : List String :=
  let s := facilitiesSection all_slots
  [titleLine, checkedOnLine now] ++ s.1 ++
    [if s.2.1 = 0 then noSlotsLine else totalLine s.2.1 s.2.2, legendLine]

/-- create_telegram_summary: the lines joined with newlines. -/
def create_telegram_summary (now : String)
    (all_slots : List (String × List (String × DateEntry))) : String :=
  String.intercalate "\n" (summaryLines now all_slots)

/-- The chunk size max_length of send_telegram_message. -/
def max_length : Nat := 4000

/-- The chunk list of send_telegram_message: message[i:i+4000] for i
in range(0, len(message), 4000).  Messages are modelled as character
lists; a Python range with step 4000 below len(message) has
ceil(len / 4000) elements and a slice [i:i+4000] drops i characters
and takes at most 4000. -/
def send_chunks (message : List Char) : List (List Char) :=
  (List.range' 0 ((message.length + (max_length - 1)) / max_length)
      max_length).map
    (fun i => (message.drop i).take max_length)

/-- The send loop over the chunks, driven by a per-chunk success
oracle: each successful call records its text and continues; a failed
call records the attempt and aborts with failure. -/
def sendAll (sendOk : List Char → Bool) :
    List (List Char) → List (List Char) × Bool
  | [] => ([], true)
  | m :: rest =>
    if sendOk m then
      let r := sendAll sendOk rest
      (m :: r.1, r.2)
    else ([m], false)

/-- send_telegram_message: without credentials no call is attempted
and False is returned; otherwise the message is chunked and the
chunks are sent in order. -/
def send_telegram_message (hasCreds : Bool) (sendOk : List Char → Bool)
    (message : List Char) : List (List Char) × Bool :=
  if !hasCreds then ([], false)
  else sendAll sendOk (send_chunks message)

/-- The resource list the parser walks for a payload v:
v["response"].get("resourceList", []). -/
def resourceListOf (v : JVal) : List JVal :=
  asList (dictGet (dictGet v "response" JVal.null) "resourceList" (JVal.arr []))

/-- The slot list of one resource: resource.get("slotList", []). -/
def slotListOf (r : JVal) : List JVal :=
  asList (dictGet r "slotList" (JVal.arr []))

/-- The court name of one resource:
resource.get("resourceName", "Unknown"). -/
def resourceNameOf (r : JVal) : JVal :=
  dictGet r "resourceName" (JVal.str "Unknown")

/-- A payload with the given status and resource list, in the shape
returned by the API. -/
def mkPayload (status : JVal) (resources : List JVal) : JVal :=
  JVal.obj [("responseStatusCode", status),
            ("response", JVal.obj [("resourceList", JVal.arr resources)])]

/-- A resource with the given name and slot list. -/
def mkResource (name : String) (slots : List JVal) : JVal :=
  JVal.obj [("resourceName", JVal.str name), ("slotList", JVal.arr slots)]

/-- Example slot: explicit boolean false but status "Available". -/
def c1Slot1 : JVal :=
  JVal.obj [("isAvailable", JVal.bool false),
            ("availabilityStatus", JVal.str "Available"),
            ("timeRangeName", JVal.str "8:00 AM - 9:00 AM")]

/-- Example slot: explicit boolean true but status "Booked". -/
def c1Slot2 : JVal :=
  JVal.obj [("isAvailable", JVal.bool true),
            ("availabilityStatus", JVal.str "Booked"),
            ("timeRangeName", JVal.str "9:00 AM - 10:00 AM")]

/-- Example slot: boolean false and a status other than
"Available". -/
def c1Slot3 : JVal :=
  JVal.obj [("isAvailable", JVal.bool false),
            ("availabilityStatus", JVal.str "Booked"),
            ("timeRangeName", JVal.str "10:00 AM - 11:00 AM")]

/-- A payload holding the three example slots on one court. -/
def c1Payload : JVal :=
  mkPayload (JVal.num 200) [mkResource "Court 1" [c1Slot1, c1Slot2, c1Slot3]]

/-- Example slot whose isAvailable field holds the truthy non-boolean
string "false" while the status is not "Available". -/
def c10SlotStr : JVal :=
  JVal.obj [("isAvailable", JVal.str "false"),
            ("availabilityStatus", JVal.str "Booked")]

/-- Example slot whose isAvailable field holds the integer 1 while the
status is not "Available". -/
def c10SlotNum : JVal :=
  JVal.obj [("isAvailable", JVal.num 1),
            ("availabilityStatus", JVal.str "Booked")]

/-- A payload holding the two truthy non-boolean example slots. -/
def c10Payload : JVal :=
  mkPayload (JVal.num 200) [mkResource "Court 1" [c10SlotStr, c10SlotNum]]

/-- A slotless payload with integer status 200. -/
def p200 : JVal := mkPayload (JVal.num 200) []

/-- A payload with integer status 2008 and no response body. -/
def p2008 : JVal := JVal.obj [("responseStatusCode", JVal.num 2008)]

/-- A sentinel payload that still carries one available slot. -/
def w9Payload : JVal :=
  mkPayload (JVal.num 2008) [mkResource "Court 1" [c1Slot2]]

/-- Contiguous-substring test on character lists, for the Python
membership test on strings. -/
def charsInfixOf : List Char → List Char → Bool
  | needle, [] => needle.isEmpty
  | needle, c :: rest =>
    List.isPrefixOf needle (c :: rest) || charsInfixOf needle rest

/-- Python membership (the expression key in v) with its failure mode
made explicit: on a dict it is a key test, on a list an element test,
on a string a substring test, and on None, a boolean or a number it
raises TypeError, modelled as an error value. -/
def pyContains (v : JVal) (k : String) : Except Unit Bool :=
  match v with
  | JVal.obj fs => Except.ok (fs.any (fun p => p.1 == k))
  | JVal.arr xs => Except.ok (xs.any (fun x => JVal.beq x (JVal.str k)))
  | JVal.str s => Except.ok (charsInfixOf k.data s.data)
  | _ => Except.error ()

/-- Python subscription v[k] by a string key with its failure modes
made explicit: only a dict supports it (KeyError when the key is
absent); every other value raises TypeError. -/
def pySubscriptStr (v : JVal) (k : String) : Except Unit JVal :=
  match v with
  | JVal.obj fs =>
    match fs.lookup k with
    | some w => Except.ok w
    | none => Except.error ()
  | _ => Except.error ()

/-- Python iteration with its failure mode made explicit: a list
yields its elements, a string its characters as one-character strings,
a dict its keys; None, a boolean or a number raises TypeError. -/
def pyIter : JVal → Except Unit (List JVal)
  | JVal.arr xs => Except.ok xs
  | JVal.str s => Except.ok (s.data.map (fun c => JVal.str (String.singleton c)))
  | JVal.obj fs => Except.ok (fs.map (fun p => JVal.str p.1))
  | _ => Except.error ()

/-- The inner slot loop of extract_available_slots with its failure
mode made explicit: a non-dict slot raises AttributeError at the first
slot.get call; on a dict slot every .get succeeds and agrees with
dictGet, so the availability test and the appended record coincide
with slotAvailable and mkSlotRecord. -/
def checkedSlotLoop (resource_name : JVal) :
    List JVal → Except Unit (List SlotRecord)
  | [] => Except.ok []
  | slot :: rest =>
    match slot with
    | JVal.obj fs =>
      if slotAvailable (JVal.obj fs) then
        match checkedSlotLoop resource_name rest with
        | Except.error e => Except.error e
        | Except.ok tail =>
          Except.ok (mkSlotRecord resource_name (JVal.obj fs) :: tail)
      else checkedSlotLoop resource_name rest
    | _ => Except.error ()

/-- The outer resource loop of extract_available_slots with its
failure modes made explicit: a non-dict resource raises AttributeError
at resource.get; the slot list value is then iterated (TypeError on a
non-iterable value) and the inner loop runs on its elements. -/
def checkedResourceLoop : List JVal → Except Unit (List SlotRecord)
  | [] => Except.ok []
  | resource :: rest =>
    match resource with
    | JVal.obj fs =>
      match pyIter (dictGet (JVal.obj fs) "slotList" (JVal.arr [])) with
      | Except.error e => Except.error e
      | Except.ok slots =>
        match checkedSlotLoop (resourceNameOf (JVal.obj fs)) slots with
        | Except.error e => Except.error e
        | Except.ok recs =>
          match checkedResourceLoop rest with
          | Except.error e => Except.error e
          | Except.ok tail => Except.ok (recs ++ tail)
    | _ => Except.error ()

/-- extract_available_slots with the failure modes of the source made
explicit: the truthiness guard returns [] on None and falsy payloads
without evaluating the membership test (short circuit), the membership
test itself raises TypeError on a truthy non-iterable payload, the
subscription and every .get raise on receivers of the wrong shape, and
iteration raises on non-iterable values.  An error value means the
source raises at that point instead of returning. -/
def extract_available_slots_checked (response_data : Option JVal) :
    Except Unit (List SlotRecord) :=
  match response_data with
  | none => Except.ok []
  | some v =>
    if !pyTruthy v then Except.ok []
    else
      match pyContains v "response" with
      | Except.error e => Except.error e
      | Except.ok has =>
        if !has then Except.ok []
        else
          match pySubscriptStr v "response" with
          | Except.error e => Except.error e
          | Except.ok response =>
            match response with
            | JVal.obj gs =>
              match pyIter (dictGet (JVal.obj gs) "resourceList"
                  (JVal.arr [])) with
              | Except.error e => Except.error e
              | Except.ok resources => checkedResourceLoop resources
            | _ => Except.error ()


theorem lookup_eq_none_of_any_false {β : Type} (fs : List (String × β))
    (k : String) (h : fs.any (fun p => p.1 == k) = false) :
    fs.lookup k = none := by
  induction fs with
  | nil => rfl
  | cons p t ih =>
    rw [List.any_cons, Bool.or_eq_false_iff] at h
    have hk : (k == p.1) = false := by
      have := (beq_eq_false_iff_ne (a := p.1) (b := k)).mp h.1
      exact (beq_eq_false_iff_ne (a := k) (b := p.1)).mpr (Ne.symm this)
    simp [List.lookup, hk, ih h.2]

theorem dictGet_eq_default (v : JVal) (k : String) (d : JVal)
    (h : pyHasKey v k = false) : dictGet v k d = d := by
  cases v with
  | obj fs =>
    rw [pyHasKey] at h
    rw [dictGet, lookup_eq_none_of_any_false fs k h]
  | null => rfl
  | bool b => rfl
  | num n => rfl
  | str s => rfl
  | arr xs => rfl

theorem pyTruthy_of_hasKey (v : JVal) (k : String)
    (h : pyHasKey v k = true) : pyTruthy v = true := by
  cases v with
  | obj fs =>
    cases fs with
    | nil => simp [pyHasKey] at h
    | cons p t => simp [pyTruthy]
  | null => simp [pyHasKey] at h
  | bool b => simp [pyHasKey] at h
  | num n => simp [pyHasKey] at h
  | str s => simp [pyHasKey] at h
  | arr xs => simp [pyHasKey] at h

theorem extract_some_eq (v : JVal) :
    extract_available_slots (some v) =
      (resourceListOf v).flatMap (fun r =>
        ((slotListOf r).filter slotAvailable).map
          (mkSlotRecord (resourceNameOf r))) := by
  by_cases h : pyHasKey v "response" = true
  · have ht := pyTruthy_of_hasKey v "response" h
    simp [extract_available_slots, h, ht, resourceListOf, slotListOf,
      resourceNameOf]
  · have h0 : pyHasKey v "response" = false := by
      cases hv : pyHasKey v "response" with
      | true => exact absurd hv h
      | false => rfl
    have hd : dictGet v "response" JVal.null = JVal.null :=
      dictGet_eq_default v "response" JVal.null h0
    have hL : extract_available_slots (some v) = [] := by
      simp [extract_available_slots, h0]
    rw [hL, resourceListOf, hd]
    rfl

theorem mem_extract_iff (v : JVal) (rec : SlotRecord) :
    rec ∈ extract_available_slots (some v) ↔
      ∃ r ∈ resourceListOf v, ∃ s ∈ slotListOf r,
        slotAvailable s = true ∧ rec = mkSlotRecord (resourceNameOf r) s := by
  rw [extract_some_eq]
  simp only [List.mem_flatMap, List.mem_map, List.mem_filter]
  constructor
  · rintro ⟨r, hr, s, ⟨hs, hav⟩, hrec⟩
    exact ⟨r, hr, s, hs, hav, hrec.symm⟩
  · rintro ⟨r, hr, s, hs, hav, hrec⟩
    exact ⟨r, hr, s, ⟨hs, hav⟩, hrec.symm⟩

/-- C1: the parser includes a slot record exactly when the slot
passes the availability test, which for a boolean isAvailable field is
the disjunction of that boolean with the status string equalling
"Available"; on the concrete three-slot payload, the false/"Available"
and true/"Booked" slots are included and the false/"Booked" slot is
excluded. -/
theorem c1_parser_inclusion :
    (∀ (v : JVal) (rec : SlotRecord),
        rec ∈ extract_available_slots (some v) ↔
          ∃ r ∈ resourceListOf v, ∃ s ∈ slotListOf r,
            slotAvailable s = true ∧
              rec = mkSlotRecord (resourceNameOf r) s) ∧
    (∀ (slot : JVal) (b : Bool),
        dictGet slot "isAvailable" JVal.null = JVal.bool b →
        (slotAvailable slot = true ↔ b = true ∨
          pyEqStr (dictGet slot "availabilityStatus" JVal.null) "Available"
            = true)) ∧
    extract_available_slots (some c1Payload) =
      [mkSlotRecord (JVal.str "Court 1") c1Slot1,
       mkSlotRecord (JVal.str "Court 1") c1Slot2] := by
  refine ⟨mem_extract_iff, ?_, ?_⟩
  · intro slot b hb
    rw [slotAvailable, hb]
    cases b <;> simp [pyTruthy]
  · rfl

/-- Witness for C1 at a concrete input: the slot with isAvailable
false and status "Available" passes the availability test. -/
theorem c1_witness : slotAvailable c1Slot1 = true :=
  (c1_parser_inclusion.2.1 c1Slot1 false rfl).mpr (Or.inr rfl)

/-- C10: the availability test uses truthiness of isAvailable, not
equality with True: any slot whose isAvailable field is truthy passes,
and the concrete slots holding the string "false" and the integer 1
are both included even though their status is "Booked". -/
theorem c10_truthy_nonboolean :
    (∀ slot : JVal,
      pyTruthy (dictGet slot "isAvailable" JVal.null) = true →
      slotAvailable slot = true) ∧
    pyEqStr (dictGet c10SlotStr "availabilityStatus" JVal.null) "Available"
      = false ∧
    pyEqStr (dictGet c10SlotNum "availabilityStatus" JVal.null) "Available"
      = false ∧
    extract_available_slots (some c10Payload) =
      [mkSlotRecord (JVal.str "Court 1") c10SlotStr,
       mkSlotRecord (JVal.str "Court 1") c10SlotNum] := by
  refine ⟨?_, rfl, rfl, rfl⟩
  intro slot h
  rw [slotAvailable, h]
  rfl

/-- Witness for C10 at a concrete input: the slot whose isAvailable
holds the non-empty string "false" passes the availability test. -/
theorem c10_witness : slotAvailable c10SlotStr = true :=
  c10_truthy_nonboolean.1 c10SlotStr rfl

theorem pollLoop_all_fail (responses : Nat → ApiResult) :
    ∀ (rem att : Nat),
      (∀ k, k ≤ rem → attemptFails (responses (att + k)) = true) →
      pollLoop responses rem att =
        { result := none, sleeps := List.replicate rem RETRY_DELAY,
          attempts := rem + 1 } := by
  intro rem
  induction rem with
  | zero =>
    intro att h
    have h0 := h 0 (Nat.le_refl 0)
    rw [Nat.add_zero] at h0
    cases hr : responses att with
    | reqError => simp [pollLoop, hr]
    | payload d =>
      rw [hr, attemptFails] at h0
      have hacc : acceptedStatus d = false := by
        cases ha : acceptedStatus d with
        | false => rfl
        | true => rw [ha] at h0; exact absurd h0 (by decide)
      simp [pollLoop, hr, hacc]
  | succ r ih =>
    intro att h
    have h0 := h 0 (Nat.zero_le _)
    rw [Nat.add_zero] at h0
    have hrest : ∀ k, k ≤ r → attemptFails (responses (att + 1 + k)) = true := by
      intro k hk
      have hkk := h (k + 1) (Nat.succ_le_succ hk)
      have harr : att + (k + 1) = att + 1 + k := by omega
      rw [harr] at hkk
      exact hkk
    cases hr : responses att with
    | reqError =>
      simp [pollLoop, hr, ih (att + 1) hrest, List.replicate_succ]
    | payload d =>
      rw [hr, attemptFails] at h0
      have hacc : acceptedStatus d = false := by
        cases ha : acceptedStatus d with
        | false => rfl
        | true => rw [ha] at h0; exact absurd h0 (by decide)
      simp [pollLoop, hr, hacc, ih (att + 1) hrest, List.replicate_succ]

/-- C2: a first attempt yielding a payload with an accepted status
(200, "200", 2008 or "2008") is returned at once: one attempt, no
sleeps, no retry. -/
theorem c2_accepted_returns_immediately (responses : Nat → ApiResult)
    (d : JVal) (h0 : responses 0 = ApiResult.payload d)
    (hacc : acceptedStatus d = true) :
    get_facility_slots responses =
      { result := some d, sleeps := [], attempts := 1 } := by
  rw [get_facility_slots, MAX_RETRIES]
  simp [pollLoop, h0, hacc]

/-- Witness for C2 at a concrete input: a stream answering status 200
on every attempt is returned on the first attempt. -/
theorem c2_witness :
    get_facility_slots (fun _ => ApiResult.payload p200) =
      { result := some p200, sleeps := [], attempts := 1 } :=
  c2_accepted_returns_immediately (fun _ => ApiResult.payload p200) p200
    rfl (by decide)

/-- C3: when every attempt fails (request-level failure or a payload
with a status outside the accepted set), the poller makes MAX_RETRIES
additional attempts, sleeping RETRY_DELAY seconds before each retry,
and then returns None; no exception escapes (the model is total). -/
theorem c3_retries_then_fails (responses : Nat → ApiResult)
    (h : ∀ k, k ≤ MAX_RETRIES → attemptFails (responses k) = true) :
    get_facility_slots responses =
      { result := none, sleeps := [RETRY_DELAY, RETRY_DELAY, RETRY_DELAY],
        attempts := MAX_RETRIES + 1 } := by
  rw [get_facility_slots]
  have := pollLoop_all_fail responses MAX_RETRIES 0
    (by intro k hk; rw [Nat.zero_add]; exact h k hk)
  rw [this]
  rfl

/-- Witness for C3 at a concrete input: a stream failing at the
request level on every attempt yields None after three slept
retries and four attempts. -/
theorem c3_witness :
    get_facility_slots (fun _ => ApiResult.reqError) =
      { result := none, sleeps := [RETRY_DELAY, RETRY_DELAY, RETRY_DELAY],
        attempts := MAX_RETRIES + 1 } :=
  c3_retries_then_fails (fun _ => ApiResult.reqError)
    (by intro k _; rfl)

theorem scanLoop_polled_mono (o : Nat → Option JVal) :
    ∀ (r i k : Nat), k ∈ (scanLoop o r i).polled → i ≤ k := by
  intro r
  induction r with
  | zero =>
    intro i k hk
    cases ho : o i with
    | none =>
      simp [scanLoop, ho] at hk
      omega
    | some data =>
      cases hs : sentinelStatus data with
      | true =>
        simp [scanLoop, ho, hs] at hk
        omega
      | false =>
        simp [scanLoop, ho, hs] at hk
        omega
  | succ r ih =>
    intro i k hk
    cases ho : o i with
    | none =>
      simp [scanLoop, ho] at hk
      omega
    | some data =>
      cases hs : sentinelStatus data with
      | true =>
        simp [scanLoop, ho, hs] at hk
        omega
      | false =>
        simp [scanLoop, ho, hs] at hk
        rcases hk with hk | hk
        · omega
        · have := ih (i + 1) k hk
          omega

theorem scanLoop_no_stop_before (o : Nat → Option JVal) :
    ∀ (r i k : Nat), k ∈ (scanLoop o r i).polled →
      ∀ m, i ≤ m → m < k → stopsAt o m = false := by
  intro r
  induction r with
  | zero =>
    intro i k hk m him hmk
    cases ho : o i with
    | none =>
      simp [scanLoop, ho] at hk
      omega
    | some data =>
      cases hs : sentinelStatus data with
      | true =>
        simp [scanLoop, ho, hs] at hk
        omega
      | false =>
        simp [scanLoop, ho, hs] at hk
        omega
  | succ r ih =>
    intro i k hk m him hmk
    cases ho : o i with
    | none =>
      simp [scanLoop, ho] at hk
      omega
    | some data =>
      cases hs : sentinelStatus data with
      | true =>
        simp [scanLoop, ho, hs] at hk
        omega
      | false =>
        simp [scanLoop, ho, hs] at hk
        rcases hk with hk | hk
        · omega
        · rcases Nat.eq_or_lt_of_le him with hm | hm
          · rw [← hm, stopsAt, ho]
            exact hs
          · exact ih (i + 1) k hk m hm hmk

theorem scanLoop_stop_reason (o : Nat → Option JVal) :
    ∀ (r i j : Nat), j ∈ (scanLoop o r i).polled → stopsAt o j = true →
      (scanLoop o r i).stop = StopReason.pollFailed ∨
        (scanLoop o r i).stop = StopReason.sentinel := by
  intro r
  induction r with
  | zero =>
    intro i j hj hstop
    cases ho : o i with
    | none => left; simp [scanLoop, ho]
    | some data =>
      cases hs : sentinelStatus data with
      | true => right; simp [scanLoop, ho, hs]
      | false =>
        simp [scanLoop, ho, hs] at hj
        rw [hj] at hstop
        simp [stopsAt, ho, hs] at hstop
  | succ r ih =>
    intro i j hj hstop
    cases ho : o i with
    | none => left; simp [scanLoop, ho]
    | some data =>
      cases hs : sentinelStatus data with
      | true => right; simp [scanLoop, ho, hs]
      | false =>
        simp [scanLoop, ho, hs] at hj ⊢
        rcases hj with hj | hj
        · rw [hj] at hstop
          simp [stopsAt, ho, hs] at hstop
        · exact ih (i + 1) j hj hstop

theorem scanLoop_polled_length (o : Nat → Option JVal) :
    ∀ (r i : Nat), (scanLoop o r i).polled.length ≤ r + 1 := by
  intro r
  induction r with
  | zero =>
    intro i
    cases ho : o i with
    | none => simp [scanLoop, ho]
    | some data =>
      cases hs : sentinelStatus data with
      | true => simp [scanLoop, ho, hs]
      | false => simp [scanLoop, ho, hs]
  | succ r ih =>
    intro i
    cases ho : o i with
    | none => simp [scanLoop, ho]
    | some data =>
      cases hs : sentinelStatus data with
      | true => simp [scanLoop, ho, hs]
      | false =>
        simp [scanLoop, ho, hs]
        have := ih (i + 1)
        omega

theorem scanLoop_polled_all (o : Nat → Option JVal) :
    ∀ (r i : Nat), (∀ m, i ≤ m → m ≤ i + r → stopsAt o m = false) →
      (scanLoop o r i).polled = List.range' i (r + 1) := by
  intro r
  induction r with
  | zero =>
    intro i h
    have hi := h i (Nat.le_refl i) (by omega)
    cases ho : o i with
    | none => rw [stopsAt, ho] at hi; exact absurd hi (by decide)
    | some data =>
      cases hs : sentinelStatus data with
      | true => simp [stopsAt, ho, hs] at hi
      | false => simp [scanLoop, ho, hs, List.range']
  | succ r ih =>
    intro i h
    have hi := h i (Nat.le_refl i) (by omega)
    cases ho : o i with
    | none => rw [stopsAt, ho] at hi; exact absurd hi (by decide)
    | some data =>
      cases hs : sentinelStatus data with
      | true => simp [stopsAt, ho, hs] at hi
      | false =>
        have hrest := ih (i + 1) (by intro m hm1 hm2; exact h m (by omega) (by omega))
        simp [scanLoop, ho, hs, hrest, List.range'_succ]

theorem recordedEntries_slots (data : JVal) (i : Nat)
    (p : Nat × DateEntry) (hp : p ∈ recordedEntries data i) :
    p.2.slots ≠ [] := by
  rw [recordedEntries] at hp
  cases he : (extract_available_slots (some data)).isEmpty with
  | true => rw [he] at hp; simp at hp
  | false =>
    rw [he] at hp
    simp at hp
    rw [hp]
    exact List.isEmpty_eq_false.mp he

theorem scanLoop_entries_slots (o : Nat → Option JVal) :
    ∀ (r i : Nat) (p : Nat × DateEntry),
      p ∈ (scanLoop o r i).entries → p.2.slots ≠ [] := by
  intro r
  induction r with
  | zero =>
    intro i p hp
    cases ho : o i with
    | none => simp [scanLoop, ho] at hp
    | some data =>
      cases hs : sentinelStatus data with
      | true =>
        simp only [scanLoop, ho, hs] at hp
        exact recordedEntries_slots data i p (by simpa using hp)
      | false =>
        simp only [scanLoop, ho, hs] at hp
        exact recordedEntries_slots data i p (by simpa using hp)
  | succ r ih =>
    intro i p hp
    cases ho : o i with
    | none => simp [scanLoop, ho] at hp
    | some data =>
      cases hs : sentinelStatus data with
      | true =>
        simp only [scanLoop, ho, hs] at hp
        exact recordedEntries_slots data i p (by simpa using hp)
      | false =>
        simp only [scanLoop, ho, hs] at hp
        rcases List.mem_append.mp (by simpa using hp) with hp | hp
        · exact recordedEntries_slots data i p hp
        · exact ih (i + 1) p hp

/-- C4: when the poller result for day offset j is the failure signal
or carries the sentinel status 2008, the facility scan never polls any
later day, and if day j was reached the scan stopped for that reason
(never for the safety limit being exceeded first at j). -/
theorem c4_sentinel_stops_scan (o : Nat → Option JVal) (j : Nat)
    (h : stopsAt o j = true) :
    (∀ k, j < k → k ∉ (scanFacility o).polled) ∧
    (j ∈ (scanFacility o).polled →
      (scanFacility o).stop = StopReason.pollFailed ∨
        (scanFacility o).stop = StopReason.sentinel) := by
  simp only [scanFacility]
  constructor
  · intro k hjk hk
    have hfalse := scanLoop_no_stop_before o 5 0 k hk j (Nat.zero_le j) hjk
    rw [hfalse] at h
    exact absurd h (by decide)
  · intro hj
    exact scanLoop_stop_reason o 5 0 j hj h

/-- Witness for C4 at a concrete input: with the sentinel payload on
day 0, day 1 is never polled. -/
theorem c4_witness : 1 ∉ (scanFacility (fun _ => some p2008)).polled :=
  (c4_sentinel_stops_scan (fun _ => some p2008) 0 (by decide)).1 1
    (by decide)

/-- C5: a facility scan polls at most 6 day offsets, and when neither
the failure signal nor the sentinel occurs in the window it polls
exactly offsets 0 through 5 (today plus 5 more days) and then
stops. -/
theorem c5_scan_bounded (o : Nat → Option JVal) :
    (scanFacility o).polled.length ≤ 6 ∧
    ((∀ j, j ≤ 5 → stopsAt o j = false) →
      (scanFacility o).polled = [0, 1, 2, 3, 4, 5]) := by
  simp only [scanFacility]
  constructor
  · exact scanLoop_polled_length o 5 0
  · intro h
    have hall := scanLoop_polled_all o 5 0
      (by intro m hm0 hm5; exact h m (by omega))
    rw [hall]
    rfl

/-- Witness for C5 at a concrete input: an oracle always answering
status 200 is polled on exactly the six offsets 0 through 5. -/
theorem c5_witness :
    (scanFacility (fun _ => some p200)).polled = [0, 1, 2, 3, 4, 5] :=
  (c5_scan_bounded (fun _ => some p200)).2 (by decide)

/-- C9: every facility bound in the aggregate returned by
check_facilities carries at least one date entry, every date entry
holds a non-empty slot list, and save_results preserves the aggregate
bindings unchanged, so the saved file satisfies the same
invariant. -/
theorem c9_aggregate_invariant (o : String → Nat → Option JVal)
    (facilities : List String) (f : String)
    (dates : List (Nat × DateEntry))
    (h : (f, dates) ∈ check_facilities o facilities) :
    dates ≠ [] ∧ (∀ p ∈ dates, p.2.slots ≠ []) ∧
      save_results (check_facilities o facilities) =
        check_facilities o facilities := by
  rw [check_facilities] at h
  rcases List.mem_filterMap.mp h with ⟨g, hg, hsome⟩
  simp only at hsome
  cases he : (scanFacility (o g)).entries.isEmpty with
  | true => rw [he] at hsome; simp at hsome
  | false =>
    rw [he] at hsome
    simp only [Bool.false_eq_true, if_false, Option.some.injEq,
      Prod.mk.injEq] at hsome
    rcases hsome with ⟨hgf, hent⟩
    refine ⟨?_, ?_, ?_⟩
    · rw [← hent]
      exact List.isEmpty_eq_false.mp he
    · intro p hp
      rw [← hent] at hp
      exact scanLoop_entries_slots (o g) 5 0 p hp
    · simp [save_results]

/-- Witness for C9 at a concrete input: the scan of a sentinel payload
carrying one available slot records a non-empty entry list. -/
theorem c9_witness :
    (scanFacility (fun _ => some w9Payload)).entries ≠ [] :=
  (c9_aggregate_invariant (fun _ _ => some w9Payload) ["f"] "f"
    (scanFacility (fun _ => some w9Payload)).entries
    (List.Mem.head _)).1

theorem ne_of_data_take_two (a b : String)
    (h : a.data.take 2 ≠ b.data.take 2) : a ≠ b :=
  fun e => h (congrArg (fun s => s.data.take 2) e)

theorem facilityHeaderLine_take2 (name : String) :
    (facilityHeaderLine name).data.take 2 = ['\n', '<'] := by
  rw [facilityHeaderLine, String.data_append, String.data_append,
    List.append_assoc, List.take_append_of_le_length (by decide)]
  rfl

theorem checkedOnLine_take2 (now : String) :
    (checkedOnLine now).data.take 2 = ['📅', ' '] := by
  rw [checkedOnLine, String.data_append, String.data_append,
    List.append_assoc, List.take_append_of_le_length (by decide)]
  rfl

/-- C7: on the empty aggregate the summary consists of exactly the
title, the timestamp line, the no-slots marker line and the legend; in
particular it contains the marker line, the facility section is empty,
and no facility header line occurs. -/
theorem c7_empty_aggregate (now : String) :
    summaryLines now [] =
      [titleLine, checkedOnLine now, noSlotsLine, legendLine] ∧
    noSlotsLine ∈ summaryLines now [] ∧
    (facilitiesSection []).1 = [] ∧
    (∀ name, facilityHeaderLine name ∉ summaryLines now []) := by
  have hlines : summaryLines now [] =
      [titleLine, checkedOnLine now, noSlotsLine, legendLine] := rfl
  refine ⟨hlines, ?_, rfl, ?_⟩
  · rw [hlines]
    exact List.mem_cons_of_mem _ (List.mem_cons_of_mem _ (List.Mem.head _))
  · intro name hmem
    rw [hlines] at hmem
    simp only [List.mem_cons, List.not_mem_nil, or_false] at hmem
    rcases hmem with h1 | h2 | h3 | h4
    · have := congrArg (fun s => s.data.take 2) h1
      simp only [facilityHeaderLine_take2] at this
      exact absurd this (by decide)
    · have := congrArg (fun s => s.data.take 2) h2
      simp only [facilityHeaderLine_take2, checkedOnLine_take2] at this
      exact absurd this (by decide)
    · have := congrArg (fun s => s.data.take 2) h3
      simp only [facilityHeaderLine_take2] at this
      exact absurd this (by decide)
    · have := congrArg (fun s => s.data.take 2) h4
      simp only [facilityHeaderLine_take2] at this
      exact absurd this (by decide)

/-- Witness for C7 at a concrete input: the no-slots marker line is
among the lines produced for the empty aggregate. -/
theorem c7_witness : noSlotsLine ∈ summaryLines "01/01/2025 00:00" [] :=
  (c7_empty_aggregate "01/01/2025 00:00").2.1

theorem send_chunks_flatten_aux :
    ∀ (c s : Nat) (l : List Char),
      ((List.range' s c max_length).map
          (fun i => (l.drop i).take max_length)).flatten =
        (l.drop s).take (max_length * c) := by
  intro c
  induction c with
  | zero => intro s l; simp
  | succ c ih =>
    intro s l
    rw [List.range'_succ]
    simp only [List.map_cons, List.flatten_cons]
    rw [ih (s + max_length) l, ← List.drop_drop, Nat.mul_succ,
      Nat.add_comm (max_length * c) max_length, List.take_add]

theorem send_chunks_flatten (l : List Char) : (send_chunks l).flatten = l := by
  rw [send_chunks,
    send_chunks_flatten_aux ((l.length + (max_length - 1)) / max_length) 0 l,
    List.drop_zero]
  apply List.take_of_length_le
  have h := Nat.div_add_mod (l.length + (max_length - 1)) max_length
  have hm : (l.length + (max_length - 1)) % max_length < max_length :=
    Nat.mod_lt _ (by decide)
  simp only [max_length] at h hm ⊢
  omega

theorem sendAll_all_ok (sendOk : List Char → Bool)
    (hok : ∀ c, sendOk c = true) :
    ∀ ms : List (List Char), sendAll sendOk ms = (ms, true) := by
  intro ms
  induction ms with
  | nil => rfl
  | cons m rest ih => simp [sendAll, hok m, ih]

/-- C8: the notifier splits the message into contiguous chunks whose
concatenation restores the message, each chunk has at most max_length
(4000) characters, with credentials and a succeeding channel the calls
made are exactly the chunks in order, and a 9000-character message
yields exactly 3 calls. -/
theorem c8_chunking :
    (∀ msg : List Char, (send_chunks msg).flatten = msg) ∧
    (∀ (msg : List Char) (c : List Char),
      c ∈ send_chunks msg → c.length ≤ max_length) ∧
    (∀ (msg : List Char) (sendOk : List Char → Bool),
      (∀ c, sendOk c = true) →
      send_telegram_message true sendOk msg = (send_chunks msg, true)) ∧
    (∀ msg : List Char, msg.length = 9000 →
      (send_chunks msg).length = 3) := by
  refine ⟨send_chunks_flatten, ?_, ?_, ?_⟩
  · intro msg c hc
    rw [send_chunks] at hc
    rcases List.mem_map.mp hc with ⟨i, _, hceq⟩
    rw [← hceq, List.length_take]
    exact min_le_left _ _
  · intro msg sendOk hok
    rw [send_telegram_message]
    simp [sendAll_all_ok sendOk hok]
  · intro msg h
    rw [send_chunks, List.length_map, List.length_range', h]
    rfl

/-- Witness for C8 at a concrete input: a 9000-character message is
split into exactly 3 chunks. -/
theorem c8_witness : (send_chunks (List.replicate 9000 'a')).length = 3 :=
  c8_chunking.2.2.2 (List.replicate 9000 'a') (List.length_replicate 9000 'a')


theorem pyContains_ok_false (v : JVal) (k : String)
    (h : pyContains v k = Except.ok false) : pyHasKey v k = false := by
  cases v with
  | obj fs =>
    simp only [pyContains, Except.ok.injEq] at h
    simp only [pyHasKey]
    exact h
  | arr xs => rfl
  | str s => rfl
  | null => rfl
  | bool b => rfl
  | num n => rfl

theorem pySubscriptStr_ok (v : JVal) (k : String) (w : JVal)
    (h : pySubscriptStr v k = Except.ok w) :
    dictGet v k JVal.null = w ∧ pyHasKey v k = true := by
  cases v with
  | obj fs =>
    cases hl : fs.lookup k with
    | some u =>
      simp only [pySubscriptStr, hl, Except.ok.injEq] at h
      constructor
      · simp only [dictGet, hl]
        exact h
      · cases ha : fs.any (fun p => p.1 == k) with
        | true => simp only [pyHasKey]; exact ha
        | false =>
          rw [lookup_eq_none_of_any_false fs k ha] at hl
          exact Option.noConfusion hl
    | none => simp [pySubscriptStr, hl] at h
  | null => simp [pySubscriptStr] at h
  | bool b => simp [pySubscriptStr] at h
  | num n => simp [pySubscriptStr] at h
  | str s => simp [pySubscriptStr] at h
  | arr xs => simp [pySubscriptStr] at h

theorem checkedSlotLoop_ok (name : JVal) :
    ∀ (slots : List JVal) (recs : List SlotRecord),
      checkedSlotLoop name slots = Except.ok recs →
      recs = (slots.filter slotAvailable).map (mkSlotRecord name) := by
  intro slots
  induction slots with
  | nil =>
    intro recs h
    simp only [checkedSlotLoop, Except.ok.injEq] at h
    rw [← h]
    rfl
  | cons slot rest ih =>
    intro recs h
    cases slot with
    | obj fs =>
      simp only [checkedSlotLoop] at h
      split at h
      next hav =>
        split at h
        next e heq => simp at h
        next tail heq =>
          simp only [Except.ok.injEq] at h
          subst h
          simp [List.filter_cons, hav, ih tail heq]
      next hav =>
        have hv : slotAvailable (JVal.obj fs) = false := by
          cases hx : slotAvailable (JVal.obj fs) with
          | true => exact absurd hx hav
          | false => rfl
        simp only [List.filter_cons, hv, Bool.false_eq_true, if_false]
        exact ih recs h
    | null => simp [checkedSlotLoop] at h
    | bool b => simp [checkedSlotLoop] at h
    | num n => simp [checkedSlotLoop] at h
    | str s => simp [checkedSlotLoop] at h
    | arr xs => simp [checkedSlotLoop] at h

theorem slotIter_agree (lv name : JVal) (elems : List JVal)
    (recs : List SlotRecord) (hit : pyIter lv = Except.ok elems)
    (hloop : checkedSlotLoop name elems = Except.ok recs) :
    recs = ((asList lv).filter slotAvailable).map (mkSlotRecord name) := by
  cases lv with
  | arr xs =>
    simp only [pyIter, Except.ok.injEq] at hit
    subst hit
    exact checkedSlotLoop_ok name xs recs hloop
  | str s =>
    simp only [pyIter, Except.ok.injEq] at hit
    subst hit
    cases hd : s.data with
    | nil =>
      rw [hd] at hloop
      simp only [List.map_nil, checkedSlotLoop, Except.ok.injEq] at hloop
      rw [← hloop]
      rfl
    | cons c cs =>
      rw [hd] at hloop
      simp [checkedSlotLoop] at hloop
  | obj fs =>
    simp only [pyIter, Except.ok.injEq] at hit
    subst hit
    cases fs with
    | nil =>
      simp only [List.map_nil, checkedSlotLoop, Except.ok.injEq] at hloop
      rw [← hloop]
      rfl
    | cons p t => simp [checkedSlotLoop] at hloop
  | null => simp [pyIter] at hit
  | bool b => simp [pyIter] at hit
  | num n => simp [pyIter] at hit

theorem checkedResourceLoop_ok :
    ∀ (resources : List JVal) (recs : List SlotRecord),
      checkedResourceLoop resources = Except.ok recs →
      recs = resources.flatMap (fun r =>
        ((slotListOf r).filter slotAvailable).map
          (mkSlotRecord (resourceNameOf r))) := by
  intro resources
  induction resources with
  | nil =>
    intro recs h
    simp only [checkedResourceLoop, Except.ok.injEq] at h
    rw [← h]
    rfl
  | cons resource rest ih =>
    intro recs h
    cases resource with
    | obj fs =>
      simp only [checkedResourceLoop] at h
      split at h
      next e heq => simp at h
      next slots heq =>
        split at h
        next e heq2 => simp at h
        next recs1 heq2 =>
          split at h
          next e heq3 => simp at h
          next tail heq3 =>
            simp only [Except.ok.injEq] at h
            subst h
            rw [List.flatMap_cons,
              slotIter_agree _ _ slots recs1 heq heq2, ih tail heq3]
            rfl
    | null => simp [checkedResourceLoop] at h
    | bool b => simp [checkedResourceLoop] at h
    | num n => simp [checkedResourceLoop] at h
    | str s => simp [checkedResourceLoop] at h
    | arr xs => simp [checkedResourceLoop] at h

theorem resourceIter_agree (rl : JVal) (resources : List JVal)
    (recs : List SlotRecord) (hit : pyIter rl = Except.ok resources)
    (hloop : checkedResourceLoop resources = Except.ok recs) :
    recs = (asList rl).flatMap (fun r =>
      ((slotListOf r).filter slotAvailable).map
        (mkSlotRecord (resourceNameOf r))) := by
  cases rl with
  | arr xs =>
    simp only [pyIter, Except.ok.injEq] at hit
    subst hit
    exact checkedResourceLoop_ok xs recs hloop
  | str s =>
    simp only [pyIter, Except.ok.injEq] at hit
    subst hit
    cases hd : s.data with
    | nil =>
      rw [hd] at hloop
      simp only [List.map_nil, checkedResourceLoop, Except.ok.injEq] at hloop
      rw [← hloop]
      rfl
    | cons c cs =>
      rw [hd] at hloop
      simp [checkedResourceLoop] at hloop
  | obj fs =>
    simp only [pyIter, Except.ok.injEq] at hit
    subst hit
    cases fs with
    | nil =>
      simp only [List.map_nil, checkedResourceLoop, Except.ok.injEq] at hloop
      rw [← hloop]
      rfl
    | cons p t => simp [checkedResourceLoop] at hloop
  | null => simp [pyIter] at hit
  | bool b => simp [pyIter] at hit
  | num n => simp [pyIter] at hit

theorem checked_extract_agree (v : JVal) (recs : List SlotRecord)
    (h : extract_available_slots_checked (some v) = Except.ok recs) :
    recs = extract_available_slots (some v) := by
  simp only [extract_available_slots_checked] at h
  split at h
  next hcond =>
    simp only [Except.ok.injEq] at h
    subst h
    have ht : pyTruthy v = false := by
      cases hx : pyTruthy v with
      | false => rfl
      | true => rw [hx] at hcond; exact absurd hcond (by decide)
    simp [extract_available_slots, ht]
  next hcond =>
    split at h
    next e heq => simp at h
    next has heq =>
      split at h
      next hhas =>
        simp only [Except.ok.injEq] at h
        subst h
        have h0 : has = false := by
          cases hx : has with
          | false => rfl
          | true => rw [hx] at hhas; exact absurd hhas (by decide)
        rw [h0] at heq
        have hk := pyContains_ok_false v "response" heq
        simp [extract_available_slots, hk]
      next hhas =>
        split at h
        next e heq2 => simp at h
        next response heq2 =>
          split at h
          next gs =>
            split at h
            next e heq3 => simp at h
            next resources heq3 =>
              rcases pySubscriptStr_ok v "response" (JVal.obj gs) heq2 with
                ⟨hdg, hk⟩
              rw [resourceIter_agree _ resources recs heq3 h, extract_some_eq,
                resourceListOf, hdg]
          next hne => simp at h

/-- Counterexample to C6 as stated: the parser is not total over its
inputs.  On the truthy non-dict payload 5 the source raises TypeError
at the membership test (the expression 5 is truthy, so the test
runs), and on the dict payload whose "response" field is the number 5
it raises AttributeError at response.get; in neither case does it
return the empty sequence. -/
theorem c6_counterexample :
    extract_available_slots_checked (some (JVal.num 5)) =
      Except.error () ∧
    extract_available_slots_checked
      (some (JVal.obj [("response", JVal.num 5)])) = Except.error () :=
  ⟨rfl, rfl⟩

/-- C6 (amended): with the failure modes of the source made explicit,
the parser returns the empty sequence (without raising) when the
payload is the failure signal, falsy, or a dict lacking the "response"
key; whenever no access raises, the result agrees with the defensive
model extract_available_slots, in which every produced record defaults
a missing resourceName to the court "Unknown", a missing isPeak to
false, and passes the time fields through as found, possibly
absent. -/
theorem c6_parser_contract :
    extract_available_slots_checked none = Except.ok [] ∧
    (∀ v : JVal, pyTruthy v = false →
      extract_available_slots_checked (some v) = Except.ok []) ∧
    (∀ fs : List (String × JVal),
      pyHasKey (JVal.obj fs) "response" = false →
      extract_available_slots_checked (some (JVal.obj fs)) =
        Except.ok []) ∧
    (∀ (v : JVal) (recs : List SlotRecord),
      extract_available_slots_checked (some v) = Except.ok recs →
      recs = extract_available_slots (some v)) ∧
    (∀ (v : JVal) (rec : SlotRecord),
      rec ∈ extract_available_slots (some v) →
      ∃ r ∈ resourceListOf v, ∃ s ∈ slotListOf r,
        rec = mkSlotRecord (resourceNameOf r) s) ∧
    (∀ r : JVal, pyHasKey r "resourceName" = false →
      resourceNameOf r = JVal.str "Unknown") ∧
    (∀ (n s : JVal), pyHasKey s "isPeak" = false →
      (mkSlotRecord n s).isPeak = JVal.bool false) ∧
    (∀ (n s : JVal),
      (mkSlotRecord n s).time = dictGet s "timeRangeName" JVal.null ∧
      (mkSlotRecord n s).startTime = dictGet s "startTime" JVal.null ∧
      (mkSlotRecord n s).endTime = dictGet s "endTime" JVal.null) := by
  refine ⟨rfl, ?_, ?_, checked_extract_agree, ?_, ?_, ?_, ?_⟩
  · intro v h
    simp [extract_available_slots_checked, h]
  · intro fs h
    cases ht : pyTruthy (JVal.obj fs) with
    | false => simp [extract_available_slots_checked, ht]
    | true =>
      simp only [pyHasKey] at h
      simp [extract_available_slots_checked, ht, pyContains, h]
  · intro v rec h
    rcases (mem_extract_iff v rec).mp h with ⟨r, hr, s, hs, _, hrec⟩
    exact ⟨r, hr, s, hs, hrec⟩
  · intro r h
    exact dictGet_eq_default r "resourceName" (JVal.str "Unknown") h
  · intro n s h
    exact dictGet_eq_default s "isPeak" (JVal.bool false) h
  · intro n s
    exact ⟨rfl, rfl, rfl⟩

/-- Witness for the amended C6 at a concrete input: the dict payload
carrying only a status code and no "response" key yields the empty
list without raising. -/
theorem c6_amended_witness :
    extract_available_slots_checked (some p2008) = Except.ok [] :=
  c6_parser_contract.2.2.1 [("responseStatusCode", JVal.num 2008)] rfl
